/-
  Verification of the CELS widgets focus / navigation / text-input engine.

  Shallow embedding of the C sources:
    src/focus.c       -- navigation state, scope cycling, overlays, split panes
    src/behavioral.c  -- clamp systems, text-input buffer editing

  Machine `int` fields are modelled as `Int`; entity identifiers
  (`cels_entity_t`, unsigned, 0 = none) as `Nat`; the float directional axes
  as `Rat` (the engine only compares them against the constants -0.5/0.5).
-/
import Mathlib

/-! ## Per-frame input snapshot (CELS_Input, the fields this engine reads) -/

structure CInput where
  has_raw_key : Bool
  raw_key : Int
  key_backspace : Bool
  key_delete : Bool
  key_home : Bool
  key_end : Bool
  key_tab : Bool
  key_shift_tab : Bool
  key_page_up : Bool
  key_page_down : Bool
  button_accept : Bool
  button_cancel : Bool
  axis_x : Rat
  axis_y : Rat
  deriving DecidableEq, Repr

def CInput.neutral : CInput :=
  ⟨false, 0, false, false, false, false, false, false, false, false,
   false, false, 0, 0⟩

/-! ## NavigationState (focus.c lines 35-54, 332)

`W_NavigationState` holds `active_scope : cels_entity_t` (0 = none) and
`scope_depth : int`. -/

structure NavState where
  active_scope : Nat
  scope_depth : Int
  deriving DecidableEq, Repr

/-- focus.c `widgets_nav_scope_push`: set the active scope, increment depth. -/
def navPush (s : NavState) (e : Nat) : NavState :=
  { active_scope := e, scope_depth := s.scope_depth + 1 }

/-- focus.c `widgets_nav_scope_pop`: decrement depth when positive; clear the
active scope when the depth reaches 0. -/
def navPop (s : NavState) : NavState :=
  let d := if s.scope_depth > 0 then s.scope_depth - 1 else s.scope_depth
  { active_scope := if d = 0 then 0 else s.active_scope, scope_depth := d }

/-- focus.c line 332 (`process_split_pane_navigation`): the activation of the
other pane's scope writes `active_scope` directly, leaving `scope_depth`
untouched.  `target` is nonzero there (guarded by `if (target_nav == 0)
continue`). -/
def navSplitActivate (s : NavState) (target : Nat) : NavState :=
  { active_scope := target, scope_depth := s.scope_depth }

/-- The spec invariant on NavigationState. -/
def navInv (s : NavState) : Prop :=
  s.scope_depth = 0 ↔ s.active_scope = 0

instance (s : NavState) : Decidable (navInv s) := by
  unfold navInv; infer_instance

/-! ## Range & scroll clamp systems (behavioral.c lines 24-54) -/

structure RangeValueF where
  value : Rat
  min : Rat
  max : Rat
  step : Rat
  deriving DecidableEq, Repr

structure RangeValueI where
  value : Int
  min : Int
  max : Int
  step : Int
  deriving DecidableEq, Repr

structure Scrollable where
  scroll_offset : Int
  total_count : Int
  visible_count : Int
  deriving DecidableEq, Repr

/-- behavioral.c `range_clamp_f_run`, body for one component: two sequential
conditional assignments. -/
def rangeClampF (r : RangeValueF) : RangeValueF :=
  let v1 := if r.value < r.min then r.min else r.value
  let v2 := if v1 > r.max then r.max else v1
  { r with value := v2 }

/-- behavioral.c `range_clamp_i_run`, body for one component. -/
def rangeClampI (r : RangeValueI) : RangeValueI :=
  let v1 := if r.value < r.min then r.min else r.value
  let v2 := if v1 > r.max then r.max else v1
  { r with value := v2 }

/-- behavioral.c `scroll_clamp_run`, body for one component. -/
def scrollClamp (s : Scrollable) : Scrollable :=
  let maxOff := s.total_count - s.visible_count
  let maxOff := if maxOff < 0 then 0 else maxOff
  let o1 := if s.scroll_offset < 0 then 0 else s.scroll_offset
  let o2 := if o1 > maxOff then maxOff else o1
  { s with scroll_offset := o2 }

/-! ## Text input edit engine (behavioral.c `text_input_system_run`, lines 87-250)

`W_TextInputBuffer` has a fixed 256-byte array (255 characters plus the NUL
terminator), `length`, `byte_length`, `cursor_pos`, `sel_start`, `sel_end`,
`scroll_x`, and an `initialized` flag.  The byte array is modelled as a total
function `Int → Nat`; the C code only ever reads and writes indices in
`[0, 255]`. -/

structure TextBuf where
  initialized : Bool
  buffer : Int → Nat
  length : Int
  byte_length : Int
  cursor_pos : Int
  sel_start : Int
  sel_end : Int
  scroll_x : Int

structure TextCfg where
  max_length : Int
  password : Bool
  multiline : Bool
  deriving DecidableEq, Repr

/-- behavioral.c lines 134-135: effective maximum length
(`max_length` default 255, hard cap 255). -/
def effMaxLen (cfg : TextCfg) : Int :=
  let m := if cfg.max_length > 0 then cfg.max_length else 255
  if m > 255 then 255 else m

/-- behavioral.c lines 114-123: one-time init of the buffer. -/
def textInit (b : TextBuf) : TextBuf :=
  if b.initialized then b
  else
    { initialized := true, buffer := fun _ => 0, length := 0, byte_length := 0,
      cursor_pos := 0, sel_start := -1, sel_end := -1, scroll_x := b.scroll_x }

/-- behavioral.c lines 139-157: printable-character insertion at the cursor.
`memmove` shifts bytes `[cursor, byte_length)` right by one when the cursor is
inside the used region, the character is written at the cursor, the counters
advance, and the new terminator position is zeroed. -/
def textInsert (maxLen : Int) (ch : Nat) (b : TextBuf) : TextBuf :=
  if b.length < maxLen then
    let bp := b.cursor_pos
    let buf1 : Int → Nat :=
      if bp < b.byte_length then
        fun i => if bp + 1 ≤ i ∧ i ≤ b.byte_length then b.buffer (i - 1) else b.buffer i
      else b.buffer
    let buf2 : Int → Nat := fun i => if i = bp then ch else buf1 i
    let bl := b.byte_length + 1
    let buf3 : Int → Nat := fun i => if i = bl then 0 else buf2 i
    { b with buffer := buf3, cursor_pos := b.cursor_pos + 1,
             length := b.length + 1, byte_length := bl }
  else b

/-- behavioral.c lines 160-174: backspace deletes the character before the
cursor; bytes after it shift left, counters decrement, terminator rewritten. -/
def textBackspace (b : TextBuf) : TextBuf :=
  if b.cursor_pos > 0 then
    let bp := b.cursor_pos - 1
    let buf1 : Int → Nat :=
      if bp < b.byte_length - 1 then
        fun i => if bp ≤ i ∧ i ≤ b.byte_length - 2 then b.buffer (i + 1) else b.buffer i
      else b.buffer
    let bl := b.byte_length - 1
    let buf2 : Int → Nat := fun i => if i = bl then 0 else buf1 i
    { b with buffer := buf2, cursor_pos := b.cursor_pos - 1,
             length := b.length - 1, byte_length := bl }
  else b

/-- behavioral.c lines 177-190: delete removes the character at the cursor;
the cursor does not move. -/
def textDelete (b : TextBuf) : TextBuf :=
  if b.cursor_pos < b.length then
    let bp := b.cursor_pos
    let buf1 : Int → Nat :=
      if bp < b.byte_length - 1 then
        fun i => if bp ≤ i ∧ i ≤ b.byte_length - 2 then b.buffer (i + 1) else b.buffer i
      else b.buffer
    let bl := b.byte_length - 1
    let buf2 : Int → Nat := fun i => if i = bl then 0 else buf1 i
    { b with buffer := buf2, length := b.length - 1, byte_length := bl }
  else b

/-- behavioral.c lines 234-241: horizontal scroll window maintenance
(visible width 30). -/
def textScrollFix (b : TextBuf) : TextBuf :=
  let b := if b.cursor_pos < b.scroll_x then { b with scroll_x := b.cursor_pos } else b
  let b := if b.cursor_pos ≥ b.scroll_x + 30 then
             { b with scroll_x := b.cursor_pos - 30 + 1 } else b
  if b.scroll_x < 0 then { b with scroll_x := 0 } else b

/-- behavioral.c lines 114-245: one frame of `text_input_system_run` for one
active (focused ∧ selected) entity, in source order: init; printable insert;
backspace; delete; edge-detected left/right cursor moves; edge-detected
Home/End; (submit and on_change touch no buffer state); scroll maintenance. -/
def textFrame (cfg : TextCfg) (cur prev : CInput) (b0 : TextBuf) : TextBuf :=
  let b := textInit b0
  let maxLen := effMaxLen cfg
  let b := if cur.has_raw_key ∧ 32 ≤ cur.raw_key ∧ cur.raw_key ≤ 126 then
             textInsert maxLen cur.raw_key.toNat b else b
  let b := if cur.key_backspace then textBackspace b else b
  let b := if cur.key_delete then textDelete b else b
  let leftEdge := cur.axis_x < -(1/2 : Rat) ∧ prev.axis_x ≥ -(1/2 : Rat)
  let rightEdge := cur.axis_x > (1/2 : Rat) ∧ prev.axis_x ≤ (1/2 : Rat)
  let b := if leftEdge ∧ b.cursor_pos > 0 then
             { b with cursor_pos := b.cursor_pos - 1 } else b
  let b := if rightEdge ∧ b.cursor_pos < b.length then
             { b with cursor_pos := b.cursor_pos + 1 } else b
  let b := if cur.key_home ∧ ¬ prev.key_home then { b with cursor_pos := 0 } else b
  let b := if cur.key_end ∧ ¬ prev.key_end then { b with cursor_pos := b.length } else b
  textScrollFix b

/-- A freshly initialized, empty text buffer (all 256 bytes zero). -/
def emptyTextBuf : TextBuf :=
  { initialized := true, buffer := fun _ => 0, length := 0, byte_length := 0,
    cursor_pos := 0, sel_start := -1, sel_end := -1, scroll_x := 0 }

/-- Input frame carrying only a printable raw key `c`. -/
def insInput (c : Int) : CInput := { CInput.neutral with has_raw_key := true, raw_key := c }

/-- Input frame carrying only the backspace key. -/
def bsInput : CInput := { CInput.neutral with key_backspace := true }

/-- Input frame carrying only the delete key. -/
def delInput : CInput := { CInput.neutral with key_delete := true }

/-- Input frame with the horizontal axis pushed fully left. -/
def leftInput : CInput := { CInput.neutral with axis_x := -1 }

/-- Input frame with the horizontal axis pushed fully right. -/
def rightInput : CInput := { CInput.neutral with axis_x := 1 }

/-- Run a list of input frames through `textFrame`, threading each frame's
input as the next frame's previous-input snapshot (focus.c line 798). -/
def runTextFrames (cfg : TextCfg) (prev : CInput) :
    List CInput → TextBuf → TextBuf
  | [], b => b
  | i :: rest, b => runTextFrames cfg i rest (textFrame cfg i prev b)

/-! ## Navigation scope engine (focus.c `process_navigation_groups`, lines 67-197)

The per-scope body: enumerate the children carrying `W_Selectable` (at most
`MAX_NAV_CHILDREN = 64` are collected), recompute `child_count`, clamp
`selected_index`, apply the edge-detected prev/next cycling, and rewrite each
collected child's selected flag.  `flags` stands for the `Selectable.selected`
values of the children that carry `W_Selectable`, in enumeration order; the
pass returns the rewritten flags of the collected children. -/

structure NavScope where
  wrap : Bool
  direction : Int
  selected_index : Int
  child_count : Int
  deriving DecidableEq, Repr

/-- focus.c lines 120-132: prev edge from the directional axis matching the
scope direction (vertical scopes read axis index 1, horizontal index 0). -/
def navPrevEdge (direction : Int) (cur prev : CInput) : Bool :=
  if direction = 0 then
    decide (cur.axis_y < -(1/2 : Rat)) && decide (prev.axis_y ≥ -(1/2 : Rat))
  else
    decide (cur.axis_x < -(1/2 : Rat)) && decide (prev.axis_x ≥ -(1/2 : Rat))

/-- focus.c lines 120-132: next edge. -/
def navNextEdge (direction : Int) (cur prev : CInput) : Bool :=
  if direction = 0 then
    decide (cur.axis_y > (1/2 : Rat)) && decide (prev.axis_y ≤ (1/2 : Rat))
  else
    decide (cur.axis_x > (1/2 : Rat)) && decide (prev.axis_x ≤ (1/2 : Rat))

/-- focus.c lines 108-147: clamp `selected_index` into range, then apply the
prev/next moves with wrap or boundary clamping. -/
def navCycle (scope : NavScope) (cc : Int) (prevE nextE : Bool) : Int :=
  let i0 := if scope.selected_index ≥ cc then cc - 1 else scope.selected_index
  let i0 := if i0 < 0 then 0 else i0
  let i1 := if prevE then
              (let j := i0 - 1
               if j < 0 then (if scope.wrap then cc - 1 else 0) else j)
            else i0
  let i2 := if nextE then
              (let j := i1 + 1
               if j ≥ cc then (if scope.wrap then 0 else cc - 1) else j)
            else i1
  i2

/-- focus.c lines 89-168: one Navigation Scope Engine pass over one scope.
Children beyond the 64-slot array are not collected; a scope with no
selectable children gets `child_count := 0` and its children and
`selected_index` are left untouched. -/
def navScopePass (scope : NavScope) (flags : List Bool) (cur prev : CInput) :
    NavScope × List Bool :=
  let collected := flags.take 64
  let cc : Int := collected.length
  if cc = 0 then ({ scope with child_count := 0 }, collected)
  else
    let prevE := navPrevEdge scope.direction cur prev
    let nextE := navNextEdge scope.direction cur prev
    let idx := navCycle scope cc prevE nextE
    let newFlags := (List.range collected.length).map (fun (i : Nat) => decide ((i : Int) = idx))
    ({ scope with child_count := cc, selected_index := idx }, newFlags)

/-! ## Overlay dismiss passes (focus.c lines 433-549)

Modal entities carry `W_Modal.visible`, an optional `W_OverlayState`
(`z_index` read with default 200 when absent, focus.c line 458), and an
optional `on_dismiss` callback, modelled as the flag `has_on_dismiss`.
Window entities carry `W_Window.visible`, `z_order`, an optional `on_close`
callback, and a `W_OverlayState`. -/

structure ModalEnt where
  visible : Bool
  ov_z : Option Int
  has_on_dismiss : Bool
  deriving DecidableEq, Repr

structure WWindow where
  visible : Bool
  z_order : Int
  has_on_close : Bool
  deriving DecidableEq, Repr

structure WOverlayState where
  visible : Bool
  z_index : Int
  modal : Bool
  deriving DecidableEq, Repr

structure WinEnt where
  win : WWindow
  ov : WOverlayState
  deriving DecidableEq, Repr

/-- focus.c line 458: a modal's z comes from its OverlayState, default 200. -/
def modalZ (m : ModalEnt) : Int := m.ov_z.getD 200

/-- focus.c lines 450-465: the scan step keeping the visible modal with the
highest z seen so far (`z > top_z`, `top_z` starting at -1). -/
def modalFold (acc : Option ModalEnt × Int) (m : ModalEnt) : Option ModalEnt × Int :=
  if m.visible = true ∧ modalZ m > acc.2 then (some m, modalZ m) else acc

/-- focus.c lines 447-465: the visible modal with the highest z_index. -/
def topVisibleModal (ms : List ModalEnt) : Option ModalEnt :=
  (ms.foldl modalFold (none, -1)).1

/-- focus.c lines 437-438 and 492-493: Escape edge detection. -/
def escapeEdge (cur prev : CInput) : Bool :=
  cur.has_raw_key && decide (cur.raw_key = 27) &&
    !(prev.has_raw_key && decide (prev.raw_key = 27))

/-- focus.c lines 496-513: whether any modal is visible. -/
def anyVisibleModal (ms : List ModalEnt) : Bool := ms.any (fun m => m.visible)

/-- focus.c lines 526-540: the scan step keeping the visible window with the
highest `z_order` seen so far (`top_z` starting at -1). -/
def winTopFold (acc : Option WinEnt × Int) (e : WinEnt) : Option WinEnt × Int :=
  if e.win.visible = true ∧ e.win.z_order > acc.2 then (some e, e.win.z_order) else acc

/-- focus.c lines 521-540: the topmost visible window. -/
def topVisibleWindow (ws : List WinEnt) : Option WinEnt :=
  (ws.foldl winTopFold (none, -1)).1

/-- focus.c lines 433-475 (`process_modal_overlay`): on an Escape edge the
topmost visible modal is dismissed. -/
def modalDismissTarget (ms : List ModalEnt) (cur prev : CInput) : Option ModalEnt :=
  if escapeEdge cur prev = true then topVisibleModal ms else none

/-- focus.c lines 468-472: the dismissed modal's `on_dismiss` runs when set. -/
def modalCallbackFires (ms : List ModalEnt) (cur prev : CInput) : Bool :=
  match modalDismissTarget ms cur prev with
  | some m => m.has_on_dismiss
  | none => false

/-- focus.c line 473: one scope pop per dismissed modal. -/
def modalPops (ms : List ModalEnt) (cur prev : CInput) : Nat :=
  if (modalDismissTarget ms cur prev).isSome then 1 else 0

/-- focus.c lines 542-549: on an Escape edge with no visible modal, the
topmost visible window is closed. -/
def windowCloseTarget (ms : List ModalEnt) (ws : List WinEnt) (cur prev : CInput) :
    Option WinEnt :=
  if escapeEdge cur prev = true ∧ anyVisibleModal ms = false then
    topVisibleWindow ws
  else none

/-- focus.c lines 544-547: the closed window's `on_close` runs when set. -/
def windowCallbackFires (ms : List ModalEnt) (ws : List WinEnt) (cur prev : CInput) : Bool :=
  match windowCloseTarget ms ws cur prev with
  | some e => e.win.has_on_close
  | none => false

/-- focus.c line 548: one scope pop per closed window. -/
def windowPops (ms : List ModalEnt) (ws : List WinEnt) (cur prev : CInput) : Nat :=
  if (windowCloseTarget ms ws cur prev).isSome then 1 else 0

/-! ## Focus-to-raise and z-band compaction (focus.c lines 551-645) -/

/-- focus.c lines 526-540: the maximum `z_order` among visible windows,
starting from -1. -/
def maxZOrder (ws : List WinEnt) : Int :=
  ws.foldl (fun acc e => if e.win.visible = true ∧ e.win.z_order > acc
                         then e.win.z_order else acc) (-1)

/-- focus.c lines 601-611: the minimum visible `z_order`, starting from
`new_z`. -/
def minZOrderFrom (ws : List WinEnt) (init : Int) : Int :=
  ws.foldl (fun acc e => if e.win.visible = true ∧ e.win.z_order < acc
                         then e.win.z_order else acc) init

/-- focus.c lines 613-628: compaction of one window — every visible window
has the minimum subtracted from its `z_order` and its OverlayState rewritten
as `visible = true, z_index = 150 + z_order, modal = true`. -/
def compactOne (minz : Int) (e : WinEnt) : WinEnt :=
  if e.win.visible = true then
    { win := { e.win with z_order := e.win.z_order - minz },
      ov := { visible := true, z_index := 150 + (e.win.z_order - minz), modal := true } }
  else e

/-- focus.c lines 591-643: raise the focused window at index `f`.
`new_z = max_z_order + 1`; when that exceeds 49, all visible windows are
compacted by the minimum visible `z_order` and `new_z` becomes
`max - min + 1`; the focused window then receives `z_order = new_z` and the
OverlayState `visible = true, z_index = 150 + new_z, modal = true`. -/
def raiseWindow (ws : List WinEnt) (f : Nat) : List WinEnt :=
  let maxz := maxZOrder ws
  let nz0 := maxz + 1
  let p : List WinEnt × Int :=
    if nz0 > 49 then
      let minz := minZOrderFrom ws nz0
      (ws.map (compactOne minz), maxz - minz + 1)
    else (ws, nz0)
  match p.1[f]? with
  | some e =>
      p.1.set f { win := { e.win with z_order := p.2 },
                  ov := { visible := true, z_index := 150 + p.2, modal := true } }
  | none => p.1

/-! ## Split-pane cross-navigation (focus.c lines 200-345) -/

/-- The Ctrl+Arrow key codes (focus.c lines 208-211): Ctrl+Up 600,
Ctrl+Down 601, Ctrl+Right 602, Ctrl+Left 603. -/
def keyCtrlRight : Int := 602

/-- The entity world seen by split-pane navigation: parent links, ordered
child lists, which entities carry `W_NavigationScope`, the scope components,
the per-entity `W_SplitPane.direction`, and the global NavigationState. -/
structure SplitWorld where
  parentOf : Nat → Nat
  childrenOf : Nat → List Nat
  hasScope : Nat → Bool
  scopes : Nat → NavScope
  splitDir : Nat → Int
  nav : NavState

/-- focus.c lines 214-223 (`is_descendant_of`): parent-chain walk, bounded at
depth 32; the ancestor check runs before each parent step, so an entity is a
descendant of itself. -/
def descendGo (p : Nat → Nat) (ancestor : Nat) : Nat → Nat → Bool
  | 0, _ => false
  | Nat.succ fuel, cur =>
      if cur = 0 then false
      else if cur = ancestor then true
      else descendGo p ancestor fuel (p cur)

def isDescendantOf (w : SplitWorld) (entity ancestor : Nat) : Bool :=
  descendGo w.parentOf ancestor 32 entity

/-- focus.c lines 236-249: grandchild scan — for each child in order, its
children are scanned in order for the first `W_NavigationScope`. -/
def findGrand (w : SplitWorld) : List Nat → Nat
  | [] => 0
  | c :: rest =>
      match (w.childrenOf c).find? w.hasScope with
      | some e => e
      | none => findGrand w rest

/-- focus.c lines 226-251 (`find_nav_scope_under`): first the direct children
in order, then one level of grandchildren; 0 when none is found. -/
def findNavScopeUnder (w : SplitWorld) (parent : Nat) : Nat :=
  match (w.childrenOf parent).find? w.hasScope with
  | some e => e
  | none => findGrand w (w.childrenOf parent)

/-- focus.c lines 254-257: the Ctrl+Arrow gate — a raw key in `[600, 603]`
that was not already held with the same code on the previous frame. -/
def ctrlArrowGate (cur prev : CInput) : Bool :=
  cur.has_raw_key && decide (600 ≤ cur.raw_key) && decide (cur.raw_key ≤ 603) &&
    !(prev.has_raw_key && decide (prev.raw_key = cur.raw_key))

/-- focus.c lines 279-287: a horizontal split (direction 0) reacts to
Ctrl+Left/Right, a vertical one to Ctrl+Up/Down. -/
def splitRelevant (dir : Int) (key : Int) : Bool :=
  if dir = 0 then decide (key = 603) || decide (key = 602)
  else decide (key = 600) || decide (key = 601)

/-- focus.c lines 270-341: the loop body for one `W_SplitPane` entity.
The first two children are the panes; the pane holding the active scope is
found by the ancestor walk (defaulting to pane 0, lines 317-324, where both
branches assign 0); a scope found under the other pane becomes the active
scope with `selected_index` reset to 0. -/
def processSplitOne (w : SplitWorld) (key : Int) (split : Nat) : SplitWorld :=
  if splitRelevant (w.splitDir split) key = false then w
  else
    match w.childrenOf split with
    | p0 :: p1 :: _ =>
        if p0 = 0 ∨ p1 = 0 then w
        else
          let active := w.nav.active_scope
          let currentPane : Nat :=
            if active ≠ 0 ∧ (isDescendantOf w active p0 = true ∨ active = p0) then 0
            else if active ≠ 0 ∧ (isDescendantOf w active p1 = true ∨ active = p1) then 1
            else 0
          let target := if currentPane = 0 then p1 else p0
          let t := findNavScopeUnder w target
          if t = 0 then w
          else
            { w with
              nav := { active_scope := t, scope_depth := w.nav.scope_depth },
              scopes := fun e => if e = t then { w.scopes e with selected_index := 0 }
                                 else w.scopes e }
    | _ => w

/-- focus.c lines 253-257 plus the loop body: the whole per-split processing
including the Ctrl+Arrow edge gate. -/
def processSplitPane (w : SplitWorld) (cur prev : CInput) (split : Nat) : SplitWorld :=
  if ctrlArrowGate cur prev = true then processSplitOne w cur.raw_key split else w

/-! ## Theorems -/

/-- C1 (counterexample): the NavigationState invariant
`scope_depth == 0 ⇔ active_scope == none` is NOT preserved by split-pane
cross-navigation's activation of the other pane's scope: from the valid
state (no active scope, depth 0), activating scope 1 yields
`active_scope = 1` with `scope_depth = 0`, breaking the equivalence. -/
theorem nav_invariant_split_break :
    navInv ⟨0, 0⟩ ∧ ¬ navInv (navSplitActivate ⟨0, 0⟩ 1) := by
  decide

/-- C1 (amended): on states with non-negative depth satisfying the invariant,
scope push with a nonzero scope entity and scope pop (the operation run on
modal and window dismiss) preserve the invariant; split-pane activation of a
nonzero scope preserves it only when `scope_depth > 0`. -/
theorem nav_invariant_preserved (s : NavState) (e t : Nat)
    (he : e ≠ 0) (ht : t ≠ 0) (hd : 0 ≤ s.scope_depth) (hs : navInv s) :
    navInv (navPush s e) ∧ navInv (navPop s) ∧
      (0 < s.scope_depth → navInv (navSplitActivate s t)) := by
  obtain ⟨a, d⟩ := s
  simp only [navInv, navPush, navPop, navSplitActivate] at *
  refine ⟨⟨fun h => absurd h (by omega), fun h => absurd h he⟩, ?_, ?_⟩
  · dsimp only
    split_ifs <;> constructor <;> intro h <;> omega
  · intro hpos
    exact ⟨fun h => absurd h (by omega), fun h => absurd h ht⟩

/-- C1 witness: the amended statement applied at the concrete state
(active scope 3, depth 1) with push entity 5 and split target 7. -/
theorem nav_invariant_preserved_witness :
    ((5 : Nat) ≠ 0 ∧ (7 : Nat) ≠ 0 ∧ (0 : Int) ≤ (1 : Int) ∧ navInv ⟨3, 1⟩) ∧
      (navInv (navPush ⟨3, 1⟩ 5) ∧ navInv (navPop ⟨3, 1⟩) ∧
        (0 < (1 : Int) → navInv (navSplitActivate ⟨3, 1⟩ 7))) :=
  ⟨⟨by decide, by decide, by decide, by decide⟩,
   nav_invariant_preserved ⟨3, 1⟩ 5 7 (by decide) (by decide) (by decide) (by decide)⟩

/-- C7 (counterexample): with `min > max` the int clamp ends at
`value = max < min`, so `min <= value` fails after the clamp system runs. -/
theorem range_clamp_violates_min :
    ¬ ((rangeClampI ⟨0, 5, 3, 0⟩).min ≤ (rangeClampI ⟨0, 5, 3, 0⟩).value) := by
  decide

/-- C7 (amended): provided `min <= max`, after the clamp systems run every
RangeValue (float and int variants) satisfies `min <= value <= max`, and
every Scrollable unconditionally satisfies
`0 <= scroll_offset <= max(0, total_count - visible_count)`; no other field
is modified. -/
theorem clamp_invariant (rf : RangeValueF) (ri : RangeValueI) (s : Scrollable)
    (hf : rf.min ≤ rf.max) (hi : ri.min ≤ ri.max) :
    ((rangeClampF rf).min ≤ (rangeClampF rf).value ∧
     (rangeClampF rf).value ≤ (rangeClampF rf).max ∧
     (rangeClampF rf).min = rf.min ∧ (rangeClampF rf).max = rf.max ∧
     (rangeClampF rf).step = rf.step) ∧
    ((rangeClampI ri).min ≤ (rangeClampI ri).value ∧
     (rangeClampI ri).value ≤ (rangeClampI ri).max ∧
     (rangeClampI ri).min = ri.min ∧ (rangeClampI ri).max = ri.max ∧
     (rangeClampI ri).step = ri.step) ∧
    (0 ≤ (scrollClamp s).scroll_offset ∧
     (scrollClamp s).scroll_offset ≤ max 0 (s.total_count - s.visible_count) ∧
     (scrollClamp s).total_count = s.total_count ∧
     (scrollClamp s).visible_count = s.visible_count) := by
  refine ⟨?_, ?_, ?_⟩
  · obtain ⟨v, mn, mx, st⟩ := rf
    simp only [rangeClampF]
    split_ifs <;> simp_all <;> constructor <;> linarith
  · obtain ⟨vi, mni, mxi, sti⟩ := ri
    simp only [rangeClampI]
    split_ifs <;> simp_all <;> omega
  · obtain ⟨o, tc, vc⟩ := s
    simp only [scrollClamp]
    split_ifs <;> simp_all <;> omega

/-- C7 witness: the amended statement at concrete components. -/
theorem clamp_invariant_witness :
    ((5 : Rat) ≤ 9 ∧ (0 : Int) ≤ 10) ∧
    (((rangeClampF ⟨99, 5, 9, 1⟩).min ≤ (rangeClampF ⟨99, 5, 9, 1⟩).value ∧
      (rangeClampF ⟨99, 5, 9, 1⟩).value ≤ (rangeClampF ⟨99, 5, 9, 1⟩).max ∧
      (rangeClampF ⟨99, 5, 9, 1⟩).min = (5 : Rat) ∧
      (rangeClampF ⟨99, 5, 9, 1⟩).max = (9 : Rat) ∧
      (rangeClampF ⟨99, 5, 9, 1⟩).step = (1 : Rat)) ∧
     ((rangeClampI ⟨-7, 0, 10, 1⟩).min ≤ (rangeClampI ⟨-7, 0, 10, 1⟩).value ∧
      (rangeClampI ⟨-7, 0, 10, 1⟩).value ≤ (rangeClampI ⟨-7, 0, 10, 1⟩).max ∧
      (rangeClampI ⟨-7, 0, 10, 1⟩).min = (0 : Int) ∧
      (rangeClampI ⟨-7, 0, 10, 1⟩).max = (10 : Int) ∧
      (rangeClampI ⟨-7, 0, 10, 1⟩).step = (1 : Int)) ∧
     (0 ≤ (scrollClamp ⟨99, 10, 3⟩).scroll_offset ∧
      (scrollClamp ⟨99, 10, 3⟩).scroll_offset ≤ max 0 ((10 : Int) - 3) ∧
      (scrollClamp ⟨99, 10, 3⟩).total_count = (10 : Int) ∧
      (scrollClamp ⟨99, 10, 3⟩).visible_count = (3 : Int))) :=
  ⟨⟨by norm_num, by decide⟩,
   clamp_invariant ⟨99, 5, 9, 1⟩ ⟨-7, 0, 10, 1⟩ ⟨99, 10, 3⟩ (by norm_num) (by decide)⟩

/-- C8: the clamp systems are idempotent on every RangeValue (both
variants) and every Scrollable state: a second application is the
identity on the result of the first. -/
theorem clamp_idempotent (rf : RangeValueF) (ri : RangeValueI) (s : Scrollable) :
    rangeClampF (rangeClampF rf) = rangeClampF rf ∧
    rangeClampI (rangeClampI ri) = rangeClampI ri ∧
    scrollClamp (scrollClamp s) = scrollClamp s := by
  refine ⟨?_, ?_, ?_⟩
  · obtain ⟨v, mn, mx, st⟩ := rf
    simp only [rangeClampF, RangeValueF.mk.injEq]
    split_ifs <;> simp_all <;> linarith
  · obtain ⟨vi, mni, mxi, sti⟩ := ri
    simp only [rangeClampI, RangeValueI.mk.injEq]
    split_ifs <;> simp_all <;> omega
  · obtain ⟨o, tc, vc⟩ := s
    simp only [scrollClamp, Scrollable.mk.injEq]
    split_ifs <;> simp_all <;> omega

/-- Overlay state as produced before any window processing. -/
def ovZero : WOverlayState := ⟨false, 0, false⟩

/-- Two visible windows at z_order 0 and 49: a distinct, in-band state. -/
def zbandStart : List WinEnt := [⟨⟨true, 0, false⟩, ovZero⟩, ⟨⟨true, 49, false⟩, ovZero⟩]

/-- C2 (failing input): raising the window at z_order 0 while another
visible window sits at 49 triggers compaction with minimum 0, which changes
nothing, and then assigns the raised window `z_order = 49 - 0 + 1 = 50`,
leaving a visible window outside the `[0, 49]` sub-band: the compaction
fails to bound the band, contrary to the code's own comment that it
prevents overflow beyond 150-199. -/
theorem zband_compaction_overflow :
    (raiseWindow zbandStart 0).map (fun e => e.win.z_order) = [50, 49] ∧
    ∃ e ∈ raiseWindow zbandStart 0, e.win.visible = true ∧ ¬ (e.win.z_order ≤ 49) := by
  decide

/-- C10: whenever the window overlay engine raises the focused window (index
`f`) or compacts the z-band, each affected window's OverlayState is
overwritten with `visible = true`, `z_index = 150 + z_order`, and
`modal = true` — so every raised or compacted window carries
`OverlayState.modal == true` even though windows are not modal overlays. -/
theorem raise_overlay_writes (ws : List WinEnt) (f : Nat) (hf : f < ws.length) :
    (∀ e, (raiseWindow ws f)[f]? = some e →
       e.ov = ⟨true, 150 + e.win.z_order, true⟩) ∧
    (maxZOrder ws + 1 > 49 →
       ∀ i e e2, i ≠ f → ws[i]? = some e → e.win.visible = true →
         (raiseWindow ws f)[i]? = some e2 →
         e2.ov = ⟨true, 150 + e2.win.z_order, true⟩) := by
  constructor
  · intro e he
    simp only [raiseWindow] at he
    split_ifs at he with hc <;> split at he <;>
      rename_i heq
    · rw [List.getElem?_set_eq_of_lt _ (by simpa using hf)] at he
      cases he
      rfl
    · rw [List.getElem?_eq_getElem (by simpa using hf)] at heq
      cases heq
    · rw [List.getElem?_set_eq_of_lt _ (by simpa using hf)] at he
      cases he
      rfl
    · rw [List.getElem?_eq_getElem (by simpa using hf)] at heq
      cases heq
  · intro hc i e e2 hne hws hvis he2
    simp only [raiseWindow] at he2
    rw [if_pos hc] at he2
    split at he2 <;> rename_i heq
    · rw [List.getElem?_set_ne (Ne.symm hne), List.getElem?_map, hws] at he2
      cases he2
      simp [compactOne, hvis]
    · rw [List.getElem?_eq_getElem (by simpa using hf)] at heq
      cases heq

/-- Two visible windows at z_order 7 and 49, for exercising a raise with
compaction. -/
def raiseDemo : List WinEnt := [⟨⟨true, 7, false⟩, ovZero⟩, ⟨⟨true, 49, true⟩, ovZero⟩]

/-- C10 witness: the raise/compaction overlay rewrite at the concrete
two-window state `raiseDemo`, raising index 0. -/
theorem raise_overlay_writes_witness :
    0 < raiseDemo.length ∧
    ((∀ e, (raiseWindow raiseDemo 0)[0]? = some e →
        e.ov = ⟨true, 150 + e.win.z_order, true⟩) ∧
     (maxZOrder raiseDemo + 1 > 49 →
        ∀ i e e2, i ≠ 0 → raiseDemo[i]? = some e → e.win.visible = true →
          (raiseWindow raiseDemo 0)[i]? = some e2 →
          e2.ov = ⟨true, 150 + e2.win.z_order, true⟩)) :=
  ⟨by decide, raise_overlay_writes raiseDemo 0 (by decide)⟩

/-- The modal scan never drops a previously selected candidate. -/
theorem modalFold_persist (l : List ModalEnt) :
    ∀ acc : Option ModalEnt × Int, acc.1.isSome = true →
      (l.foldl modalFold acc).1.isSome = true := by
  induction l with
  | nil => intro acc h; simpa using h
  | cons m rest ih =>
      intro acc h
      simp only [List.foldl_cons]
      apply ih
      rw [modalFold]
      split_ifs with hcond
      · rfl
      · exact h

/-- When the modal scan ends empty, no visible modal beat the threshold. -/
theorem modalFold_none (l : List ModalEnt) :
    ∀ acc : Option ModalEnt × Int, (l.foldl modalFold acc).1 = none →
      acc.1 = none ∧ (l.foldl modalFold acc).2 = acc.2 ∧
      ∀ m ∈ l, m.visible = true → modalZ m ≤ acc.2 := by
  induction l with
  | nil => intro acc h; exact ⟨h, rfl, by simp⟩
  | cons m rest ih =>
      intro acc hfin
      simp only [List.foldl_cons] at hfin ⊢
      have hstep : modalFold acc m = acc := by
        rw [modalFold]
        split_ifs with hcond
        · exfalso
          have : (rest.foldl modalFold (modalFold acc m)).1.isSome = true := by
            apply modalFold_persist
            rw [modalFold, if_pos hcond]
            rfl
          rw [hfin] at this
          cases this
        · rfl
      rw [hstep] at hfin ⊢
      obtain ⟨h1, h2, h3⟩ := ih acc hfin
      refine ⟨h1, h2, ?_⟩
      intro m2 hm2 hv
      rcases List.mem_cons.mp hm2 with h | h
      · subst h
        by_contra hgt
        push_neg at hgt
        have : modalFold acc m2 = (some m2, modalZ m2) := by
          rw [modalFold, if_pos ⟨hv, hgt⟩]
        rw [this] at hstep
        have := congrArg Prod.fst hstep
        rw [h1] at this
        cases this
      · exact h3 m2 h hv

/-- The modal scan's selection is visible and carries the tracked z value. -/
theorem modalFold_some (l : List ModalEnt) :
    ∀ acc : Option ModalEnt × Int,
      (∀ m, acc.1 = some m → m.visible = true ∧ modalZ m = acc.2) →
      ∀ m, (l.foldl modalFold acc).1 = some m →
        m.visible = true ∧ modalZ m = (l.foldl modalFold acc).2 := by
  induction l with
  | nil => intro acc hacc m h; exact hacc m h
  | cons m0 rest ih =>
      intro acc hacc m h
      simp only [List.foldl_cons] at h ⊢
      apply ih (modalFold acc m0) ?_ m h
      intro m2 h2
      rw [modalFold] at h2 ⊢
      split_ifs at h2 ⊢ with hcond
      · cases h2
        exact ⟨hcond.1, rfl⟩
      · exact hacc m2 h2

/-- The tracked z value bounds every visible modal's z and never decreases. -/
theorem modalFold_ub (l : List ModalEnt) :
    ∀ acc : Option ModalEnt × Int,
      acc.2 ≤ (l.foldl modalFold acc).2 ∧
      ∀ m ∈ l, m.visible = true → modalZ m ≤ (l.foldl modalFold acc).2 := by
  induction l with
  | nil => intro acc; exact ⟨le_refl _, by simp⟩
  | cons m0 rest ih =>
      intro acc
      simp only [List.foldl_cons]
      obtain ⟨ihle, ihub⟩ := ih (modalFold acc m0)
      have hstep : acc.2 ≤ (modalFold acc m0).2 := by
        rw [modalFold]
        split_ifs with hcond
        · exact le_of_lt hcond.2
        · exact le_refl _
      refine ⟨le_trans hstep ihle, ?_⟩
      intro m2 hm2 hv
      rcases List.mem_cons.mp hm2 with h | h
      · subst h
        by_cases hcond : m2.visible = true ∧ modalZ m2 > acc.2
        · have : (modalFold acc m2).2 = modalZ m2 := by rw [modalFold, if_pos hcond]
          rw [this] at ihle
          exact ihle
        · have hle : modalZ m2 ≤ acc.2 := by
            by_contra hgt
            push_neg at hgt
            exact hcond ⟨hv, hgt⟩
          exact le_trans (le_trans hle hstep) ihle
      · exact ihub m2 h hv

/-- The scan of focus.c lines 447-465 picks a visible modal whose z_index is
maximal among visible modals, and finds one whenever some visible modal has
z above the initial threshold -1. -/
theorem topVisibleModal_spec (ms : List ModalEnt) :
    (∀ m, topVisibleModal ms = some m → m.visible = true ∧
       ∀ m2 ∈ ms, m2.visible = true → modalZ m2 ≤ modalZ m) ∧
    ((∃ m ∈ ms, m.visible = true ∧ modalZ m > -1) →
       (topVisibleModal ms).isSome = true) := by
  constructor
  · intro m hm
    have hsome := modalFold_some ms (none, -1) (by intro m2 h2; cases h2) m hm
    refine ⟨hsome.1, ?_⟩
    intro m2 hm2 hv
    have hub := (modalFold_ub ms (none, -1)).2 m2 hm2 hv
    rw [hsome.2]
    exact hub
  · intro hex
    by_contra hnone
    have hnone2 : topVisibleModal ms = none := by
      cases h : topVisibleModal ms with
      | none => rfl
      | some m => rw [h] at hnone; simp at hnone
    obtain ⟨m, hmem, hv, hz⟩ := hex
    have := (modalFold_none ms (none, -1) hnone2).2.2 m hmem hv
    omega

/-- C3: with a visible Modal (z above the scan threshold, 200 by default) and
a visible Window both present and Escape edge-detected, exactly one dismissal
happens: the visible Modal with the highest z_index is dismissed (its
`on_dismiss` runs when set) with a single scope pop, while no Window's
`on_close` is invoked; and in general a Window's `on_close` can fire on
Escape only when no Modal is visible. -/
theorem modal_priority (ms : List ModalEnt) (ws : List WinEnt) (cur prev : CInput)
    (hesc : escapeEdge cur prev = true)
    (hm : ∃ m ∈ ms, m.visible = true ∧ modalZ m > -1) :
    (∃ tm, modalDismissTarget ms cur prev = some tm ∧ tm.visible = true ∧
       (∀ m ∈ ms, m.visible = true → modalZ m ≤ modalZ tm) ∧
       (tm.has_on_dismiss = true → modalCallbackFires ms cur prev = true)) ∧
    modalPops ms cur prev = 1 ∧
    windowCloseTarget ms ws cur prev = none ∧
    windowCallbackFires ms ws cur prev = false ∧
    windowPops ms ws cur prev = 0 ∧
    (∀ (ms2 : List ModalEnt) (ws2 : List WinEnt) (c2 p2 : CInput),
       (windowCloseTarget ms2 ws2 c2 p2).isSome = true →
         anyVisibleModal ms2 = false) := by
  have hvis : anyVisibleModal ms = true := by
    obtain ⟨m, hm1, hv, _⟩ := hm
    exact List.any_eq_true.mpr ⟨m, hm1, hv⟩
  have hsome := (topVisibleModal_spec ms).2 hm
  obtain ⟨tm, htm⟩ := Option.isSome_iff_exists.mp hsome
  have htarget : modalDismissTarget ms cur prev = some tm := by
    rw [modalDismissTarget, if_pos hesc, htm]
  have hspec := (topVisibleModal_spec ms).1 tm htm
  have hwnone : windowCloseTarget ms ws cur prev = none := by
    rw [windowCloseTarget, if_neg]
    intro hand
    rw [hvis] at hand
    cases hand.2
  refine ⟨⟨tm, htarget, hspec.1, hspec.2, ?_⟩, ?_, hwnone, ?_, ?_, ?_⟩
  · intro hd
    rw [modalCallbackFires, htarget]
    exact hd
  · rw [modalPops, htarget]
    rfl
  · rw [windowCallbackFires, hwnone]
  · rw [windowPops, hwnone]
    rfl
  · intro ms2 ws2 c2 p2 h
    by_contra hne
    have hv2 : anyVisibleModal ms2 = true := by
      cases hav : anyVisibleModal ms2 with
      | false => exact absurd hav hne
      | true => rfl
    rw [windowCloseTarget, if_neg (by rw [hv2]; intro hand; cases hand.2)] at h
    cases h

/-- Escape key frame. -/
def escInput : CInput := { CInput.neutral with has_raw_key := true, raw_key := 27 }

/-- One visible modal at z_index 200 with a dismiss callback. -/
def msDemo : List ModalEnt := [⟨true, some 200, true⟩]

/-- One visible window at z_order 0 (z_index 150) with a close callback. -/
def wsDemo : List WinEnt := [⟨⟨true, 0, true⟩, ⟨true, 150, true⟩⟩]

/-- C3 witness: the modal-priority statement at the concrete scenario of the
spec — a visible Modal (z_index 200) and a visible Window (z_order 0),
Escape pressed once. -/
theorem modal_priority_witness :
    (escapeEdge escInput CInput.neutral = true ∧
     ∃ m ∈ msDemo, m.visible = true ∧ modalZ m > -1) ∧
    ((∃ tm, modalDismissTarget msDemo escInput CInput.neutral = some tm ∧
        tm.visible = true ∧
        (∀ m ∈ msDemo, m.visible = true → modalZ m ≤ modalZ tm) ∧
        (tm.has_on_dismiss = true →
          modalCallbackFires msDemo escInput CInput.neutral = true)) ∧
     modalPops msDemo escInput CInput.neutral = 1 ∧
     windowCloseTarget msDemo wsDemo escInput CInput.neutral = none ∧
     windowCallbackFires msDemo wsDemo escInput CInput.neutral = false ∧
     windowPops msDemo wsDemo escInput CInput.neutral = 0 ∧
     (∀ (ms2 : List ModalEnt) (ws2 : List WinEnt) (c2 p2 : CInput),
        (windowCloseTarget ms2 ws2 c2 p2).isSome = true →
          anyVisibleModal ms2 = false)) :=
  ⟨⟨by decide, by decide⟩,
   modal_priority msDemo wsDemo escInput CInput.neutral (by decide) (by decide)⟩

/-- An indicator list over `range n` has no `true` when the index is ≥ n. -/
theorem indicator_count_zero (n : Nat) (z : Int) (h : (n : Int) ≤ z) :
    (((List.range n).map (fun (i : Nat) => decide ((i : Int) = z))).count true) = 0 := by
  rw [List.count_eq_zero]
  intro hmem
  rw [List.mem_map] at hmem
  obtain ⟨i, hi, hdec⟩ := hmem
  rw [List.mem_range] at hi
  have : (i : Int) = z := of_decide_eq_true hdec
  omega

/-- An indicator list over `range n` has exactly one `true` when the index
lies in `[0, n)`. -/
theorem indicator_count_one :
    ∀ (n : Nat) (z : Int), 0 ≤ z → z < (n : Int) →
      (((List.range n).map (fun (i : Nat) => decide ((i : Int) = z))).count true) = 1 := by
  intro n
  induction n with
  | zero => intro z h0 h1; exact absurd h1 (by omega)
  | succ n ih =>
      intro z h0 h1
      rw [List.range_succ, List.map_append, List.count_append]
      by_cases hz : z = (n : Int)
      · rw [indicator_count_zero n z (by omega)]
        subst hz
        simp
      · rw [ih z h0 (by omega)]
        have hnz : ¬ ((n : Int) = z) := by omega
        simp [hnz]

/-- The cycling step always lands inside `[0, child_count)`. -/
theorem navCycle_bounds (scope : NavScope) (cc : Int) (prevE nextE : Bool)
    (hcc : 0 < cc) :
    0 ≤ navCycle scope cc prevE nextE ∧ navCycle scope cc prevE nextE < cc := by
  simp only [navCycle]
  split_ifs <;> omega

/-- C4: after one Navigation Scope Engine pass over a scope with at least one
enumerated selectable child, `child_count` is recomputed as the number of
collected children, `0 <= selected_index < child_count` holds, and exactly
one collected child's selected flag is true — the one at `selected_index`;
a pass over a scope with no selectable children only resets `child_count`
to 0 and rewrites no child. -/
theorem nav_scope_pass_spec (scope : NavScope) (flags : List Bool)
    (cur prev : CInput) (hne : flags ≠ []) :
    0 < (navScopePass scope flags cur prev).1.child_count ∧
    (navScopePass scope flags cur prev).1.child_count = ((flags.take 64).length : Int) ∧
    0 ≤ (navScopePass scope flags cur prev).1.selected_index ∧
    (navScopePass scope flags cur prev).1.selected_index <
      (navScopePass scope flags cur prev).1.child_count ∧
    ((navScopePass scope flags cur prev).2.count true) = 1 ∧
    (navScopePass scope flags cur prev).2.length = (flags.take 64).length ∧
    (∀ i : Nat, i < (navScopePass scope flags cur prev).2.length →
       ((navScopePass scope flags cur prev).2[i]? = some true ↔
         (i : Int) = (navScopePass scope flags cur prev).1.selected_index)) ∧
    navScopePass scope ([] : List Bool) cur prev = ({ scope with child_count := 0 }, []) := by
  have hlen : 0 < (flags.take 64).length := by
    rw [List.length_take]
    cases flags with
    | nil => exact absurd rfl hne
    | cons a l => simp
  have hcc0 : ¬ (((flags.take 64).length : Int) = 0) := by
    omega
  have hpass : navScopePass scope flags cur prev =
      ({ scope with
         child_count := ((flags.take 64).length : Int),
         selected_index := navCycle scope ((flags.take 64).length : Int)
           (navPrevEdge scope.direction cur prev) (navNextEdge scope.direction cur prev) },
       (List.range (flags.take 64).length).map
         (fun (i : Nat) => decide ((i : Int) = navCycle scope ((flags.take 64).length : Int)
           (navPrevEdge scope.direction cur prev) (navNextEdge scope.direction cur prev)))) := by
    rw [navScopePass]
    simp only [if_neg hcc0]
  obtain ⟨hb0, hb1⟩ := navCycle_bounds scope ((flags.take 64).length : Int)
    (navPrevEdge scope.direction cur prev) (navNextEdge scope.direction cur prev)
    (by omega)
  rw [hpass]
  dsimp only
  refine ⟨by omega, rfl, hb0, hb1, ?_, by simp, ?_, by rfl⟩
  · exact indicator_count_one _ _ hb0 hb1
  · intro i hi
    rw [List.length_map, List.length_range] at hi
    rw [List.getElem?_map, List.getElem?_range hi]
    simp [decide_eq_true_eq]

/-- Frame with the vertical axis pushed fully down. -/
def downInput : CInput := { CInput.neutral with axis_y := 1 }

/-- C4 witness: the pass statement at a vertical wrap scope with three
selectable children and a "down" edge. -/
theorem nav_scope_pass_spec_witness :
    ([false, false, false] ≠ ([] : List Bool)) ∧
    (0 < (navScopePass ⟨true, 0, 0, 0⟩ [false, false, false] downInput CInput.neutral).1.child_count ∧
     (navScopePass ⟨true, 0, 0, 0⟩ [false, false, false] downInput CInput.neutral).1.child_count =
       ((([false, false, false] : List Bool).take 64).length : Int) ∧
     0 ≤ (navScopePass ⟨true, 0, 0, 0⟩ [false, false, false] downInput CInput.neutral).1.selected_index ∧
     (navScopePass ⟨true, 0, 0, 0⟩ [false, false, false] downInput CInput.neutral).1.selected_index <
       (navScopePass ⟨true, 0, 0, 0⟩ [false, false, false] downInput CInput.neutral).1.child_count ∧
     ((navScopePass ⟨true, 0, 0, 0⟩ [false, false, false] downInput CInput.neutral).2.count true) = 1 ∧
     (navScopePass ⟨true, 0, 0, 0⟩ [false, false, false] downInput CInput.neutral).2.length =
       (([false, false, false] : List Bool).take 64).length ∧
     (∀ i : Nat, i < (navScopePass ⟨true, 0, 0, 0⟩ [false, false, false] downInput CInput.neutral).2.length →
        ((navScopePass ⟨true, 0, 0, 0⟩ [false, false, false] downInput CInput.neutral).2[i]? = some true ↔
          (i : Int) = (navScopePass ⟨true, 0, 0, 0⟩ [false, false, false] downInput CInput.neutral).1.selected_index)) ∧
     navScopePass ⟨true, 0, 0, 0⟩ ([] : List Bool) downInput CInput.neutral =
       ({ wrap := true, direction := 0, selected_index := 0, child_count := 0 }, [])) :=
  ⟨by decide,
   nav_scope_pass_spec ⟨true, 0, 0, 0⟩ [false, false, false] downInput CInput.neutral (by decide)⟩

/-- A nonzero result of the grandchild scan carries a NavigationScope. -/
theorem findGrand_hasScope (w : SplitWorld) :
    ∀ cs : List Nat, findGrand w cs ≠ 0 → w.hasScope (findGrand w cs) = true := by
  intro cs
  induction cs with
  | nil => intro h; exact absurd rfl h
  | cons c cs ih =>
      intro h
      rw [findGrand] at h ⊢
      split at h <;> rename_i heq
      · exact List.find?_some heq
      · exact ih h

/-- A nonzero result of `find_nav_scope_under` carries a NavigationScope. -/
theorem findNavScopeUnder_hasScope (w : SplitWorld) (parent : Nat)
    (hne : findNavScopeUnder w parent ≠ 0) :
    w.hasScope (findNavScopeUnder w parent) = true := by
  rw [findNavScopeUnder] at hne ⊢
  split at hne <;> rename_i heq
  · exact List.find?_some heq
  · exact findGrand_hasScope w _ hne

/-- C9: on an edge-detected Ctrl+Right press, for a horizontal SplitPane
whose two panes are nonzero and whose active navigation scope lies under
pane 0, the engine activates the first NavigationScope found under pane 1
(direct children first, then one level of grandchildren) and resets that
scope's `selected_index` to 0, leaving all other scopes and the scope depth
untouched; when no NavigationScope exists under pane 1, nothing changes.
The search result is itself a scope carrier, and agrees with the first
scope-carrying direct child when one exists. -/
theorem split_cross_nav (w : SplitWorld) (cur prev : CInput)
    (split p0 p1 : Nat) (rest : List Nat)
    (hch : w.childrenOf split = p0 :: p1 :: rest)
    (hp0 : p0 ≠ 0) (hp1 : p1 ≠ 0)
    (hgate : ctrlArrowGate cur prev = true)
    (hkey : cur.raw_key = keyCtrlRight)
    (hdir : w.splitDir split = 0)
    (hact : w.nav.active_scope ≠ 0)
    (hdesc : isDescendantOf w w.nav.active_scope p0 = true) :
    (findNavScopeUnder w p1 ≠ 0 →
       (processSplitPane w cur prev split).nav.active_scope = findNavScopeUnder w p1 ∧
       ((processSplitPane w cur prev split).scopes (findNavScopeUnder w p1)).selected_index = 0 ∧
       (∀ e, e ≠ findNavScopeUnder w p1 →
          (processSplitPane w cur prev split).scopes e = w.scopes e) ∧
       (processSplitPane w cur prev split).nav.scope_depth = w.nav.scope_depth) ∧
    (findNavScopeUnder w p1 = 0 → processSplitPane w cur prev split = w) ∧
    (findNavScopeUnder w p1 ≠ 0 → w.hasScope (findNavScopeUnder w p1) = true) ∧
    (∀ e, (w.childrenOf p1).find? w.hasScope = some e → findNavScopeUnder w p1 = e) := by
  have hred : processSplitPane w cur prev split = processSplitOne w cur.raw_key split := by
    rw [processSplitPane, if_pos hgate]
  have hbody : processSplitOne w cur.raw_key split =
      (if findNavScopeUnder w p1 = 0 then w
       else
         { w with
           nav := { active_scope := findNavScopeUnder w p1,
                    scope_depth := w.nav.scope_depth },
           scopes := fun e => if e = findNavScopeUnder w p1 then
                                { w.scopes e with selected_index := 0 }
                              else w.scopes e }) := by
    rw [processSplitOne]
    rw [if_neg (by simp [splitRelevant, hdir, hkey, keyCtrlRight])]
    rw [hch]
    dsimp only
    rw [if_neg (by rintro (h | h); exacts [hp0 h, hp1 h])]
    rw [if_pos (show w.nav.active_scope ≠ 0 ∧
      (isDescendantOf w w.nav.active_scope p0 = true ∨ w.nav.active_scope = p0) from
        ⟨hact, Or.inl hdesc⟩)]
    simp
  refine ⟨?_, ?_, findNavScopeUnder_hasScope w p1, ?_⟩
  · intro hne
    rw [hred, hbody, if_neg hne]
    refine ⟨rfl, ?_, ?_, rfl⟩
    · simp
    · intro e he
      simp [he]
  · intro hz
    rw [hred, hbody, if_pos hz]
  · intro e he
    rw [findNavScopeUnder, he]

/-- A horizontal split (entity 1) with panes 2 and 3; pane 2 holds the
active scope entity 5, pane 3 holds a NavigationScope on entity 4. -/
def splitDemoWorld : SplitWorld :=
  { parentOf := fun n => if n = 5 then 2 else if n = 2 then 1 else if n = 3 then 1 else 0,
    childrenOf := fun n => if n = 1 then [2, 3] else if n = 3 then [4] else [],
    hasScope := fun n => decide (n = 4) || decide (n = 5),
    scopes := fun _ => ⟨true, 0, 7, 3⟩,
    splitDir := fun _ => 0,
    nav := ⟨5, 0⟩ }

/-- Ctrl+Right key frame (raw key 602). -/
def ctrlRightInput : CInput :=
  { CInput.neutral with has_raw_key := true, raw_key := 602 }

/-- C9 witness: the split cross-navigation statement at the concrete
two-pane world, pressing Ctrl+Right with pane 0 active. -/
theorem split_cross_nav_witness :
    (splitDemoWorld.childrenOf 1 = 2 :: 3 :: [] ∧ (2 : Nat) ≠ 0 ∧ (3 : Nat) ≠ 0 ∧
     ctrlArrowGate ctrlRightInput CInput.neutral = true ∧
     ctrlRightInput.raw_key = keyCtrlRight ∧
     splitDemoWorld.splitDir 1 = 0 ∧
     splitDemoWorld.nav.active_scope ≠ 0 ∧
     isDescendantOf splitDemoWorld splitDemoWorld.nav.active_scope 2 = true) ∧
    ((findNavScopeUnder splitDemoWorld 3 ≠ 0 →
        (processSplitPane splitDemoWorld ctrlRightInput CInput.neutral 1).nav.active_scope =
          findNavScopeUnder splitDemoWorld 3 ∧
        ((processSplitPane splitDemoWorld ctrlRightInput CInput.neutral 1).scopes
            (findNavScopeUnder splitDemoWorld 3)).selected_index = 0 ∧
        (∀ e, e ≠ findNavScopeUnder splitDemoWorld 3 →
           (processSplitPane splitDemoWorld ctrlRightInput CInput.neutral 1).scopes e =
             splitDemoWorld.scopes e) ∧
        (processSplitPane splitDemoWorld ctrlRightInput CInput.neutral 1).nav.scope_depth =
          splitDemoWorld.nav.scope_depth) ∧
     (findNavScopeUnder splitDemoWorld 3 = 0 →
        processSplitPane splitDemoWorld ctrlRightInput CInput.neutral 1 = splitDemoWorld) ∧
     (findNavScopeUnder splitDemoWorld 3 ≠ 0 →
        splitDemoWorld.hasScope (findNavScopeUnder splitDemoWorld 3) = true) ∧
     (∀ e, (splitDemoWorld.childrenOf 3).find? splitDemoWorld.hasScope = some e →
        findNavScopeUnder splitDemoWorld 3 = e)) :=
  ⟨⟨by decide, by decide, by decide, by decide, by decide, by decide, by decide, by decide⟩,
   split_cross_nav splitDemoWorld ctrlRightInput CInput.neutral 1 2 3 []
     (by decide) (by decide) (by decide) (by decide) (by decide) (by decide)
     (by decide) (by decide)⟩

/-- The scroll maintenance step touches only `scroll_x`. -/
theorem textScrollFix_fields (b : TextBuf) :
    (textScrollFix b).initialized = b.initialized ∧
    (textScrollFix b).buffer = b.buffer ∧
    (textScrollFix b).length = b.length ∧
    (textScrollFix b).byte_length = b.byte_length ∧
    (textScrollFix b).cursor_pos = b.cursor_pos := by
  rw [textScrollFix]
  split_ifs <;> exact ⟨rfl, rfl, rfl, rfl, rfl⟩

/-- A frame whose input is a bare printable key reduces to the insert
followed by scroll maintenance. -/
theorem textFrame_insInput (cfg : TextCfg) (c : Int) (prev : CInput) (b : TextBuf)
    (hb : b.initialized = true) (hc : 32 ≤ c) (hc2 : c ≤ 126) :
    textFrame cfg (insInput c) prev b =
      textScrollFix (textInsert (effMaxLen cfg) c.toNat b) := by
  have hinit : textInit b = b := by rw [textInit, if_pos hb]
  rw [textFrame]
  simp only [insInput, CInput.neutral, hinit]
  norm_num [hc, hc2]

/-- A frame whose input is a bare backspace key reduces to the backspace
followed by scroll maintenance. -/
theorem textFrame_bsInput (cfg : TextCfg) (prev : CInput) (b : TextBuf)
    (hb : b.initialized = true) :
    textFrame cfg bsInput prev b = textScrollFix (textBackspace b) := by
  have hinit : textInit b = b := by rw [textInit, if_pos hb]
  rw [textFrame]
  simp only [bsInput, CInput.neutral, hinit]
  norm_num

/-- A frame whose input is a bare delete key reduces to the delete followed
by scroll maintenance. -/
theorem textFrame_delInput (cfg : TextCfg) (prev : CInput) (b : TextBuf)
    (hb : b.initialized = true) :
    textFrame cfg delInput prev b = textScrollFix (textDelete b) := by
  have hinit : textInit b = b := by rw [textInit, if_pos hb]
  rw [textFrame]
  simp only [delInput, CInput.neutral, hinit]
  norm_num

/-- A frame pushing the axis left with the cursor already at 0 reduces to
scroll maintenance only. -/
theorem textFrame_left_at_zero (cfg : TextCfg) (prev : CInput) (b : TextBuf)
    (hb : b.initialized = true) (hcur : b.cursor_pos = 0) :
    textFrame cfg leftInput prev b = textScrollFix b := by
  have hinit : textInit b = b := by rw [textInit, if_pos hb]
  rw [textFrame]
  simp only [leftInput, CInput.neutral, hinit]
  norm_num [hcur]

/-- A frame pushing the axis right with the cursor already at the end
reduces to scroll maintenance only. -/
theorem textFrame_right_at_end (cfg : TextCfg) (prev : CInput) (b : TextBuf)
    (hb : b.initialized = true) (hcur : b.cursor_pos = b.length) :
    textFrame cfg rightInput prev b = textScrollFix b := by
  have hinit : textInit b = b := by rw [textInit, if_pos hb]
  rw [textFrame]
  simp only [rightInput, CInput.neutral, hinit]
  norm_num [hcur]

/-- The four TextInputBuffer fields named by the bounds-violation claim. -/
def unchanged4 (a b : TextBuf) : Prop :=
  a.buffer = b.buffer ∧ a.length = b.length ∧
  a.byte_length = b.byte_length ∧ a.cursor_pos = b.cursor_pos

/-- Scroll maintenance never changes the four claim fields. -/
theorem unchanged4_scrollFix (b : TextBuf) : unchanged4 (textScrollFix b) b := by
  obtain ⟨_, h2, h3, h4, h5⟩ := textScrollFix_fields b
  exact ⟨h2, h3, h4, h5⟩

/-- C6: every text-input bounds violation is a silent no-op on the
TextInputBuffer fields (buffer bytes, length, byte_length, cursor_pos):
a printable insert at `length == max_length` (the effective maximum),
a backspace at `cursor_pos == 0`, a delete at `cursor_pos == length`,
and left/right cursor movement at the respective edge. -/
theorem text_noop_bounds (cfg : TextCfg) (prev : CInput) (c : Int)
    (b1 b2 b3 b4 b5 : TextBuf)
    (h1i : b1.initialized = true) (h1 : b1.length = effMaxLen cfg)
    (hc : 32 ≤ c) (hc2 : c ≤ 126)
    (h2i : b2.initialized = true) (h2 : b2.cursor_pos = 0)
    (h3i : b3.initialized = true) (h3 : b3.cursor_pos = b3.length)
    (h4i : b4.initialized = true) (h4 : b4.cursor_pos = 0)
    (h5i : b5.initialized = true) (h5 : b5.cursor_pos = b5.length) :
    unchanged4 (textFrame cfg (insInput c) prev b1) b1 ∧
    unchanged4 (textFrame cfg bsInput prev b2) b2 ∧
    unchanged4 (textFrame cfg delInput prev b3) b3 ∧
    unchanged4 (textFrame cfg leftInput prev b4) b4 ∧
    unchanged4 (textFrame cfg rightInput prev b5) b5 := by
  refine ⟨?_, ?_, ?_, ?_, ?_⟩
  · rw [textFrame_insInput cfg c prev b1 h1i hc hc2]
    rw [textInsert, if_neg (by omega)]
    exact unchanged4_scrollFix b1
  · rw [textFrame_bsInput cfg prev b2 h2i]
    rw [textBackspace, if_neg (by omega)]
    exact unchanged4_scrollFix b2
  · rw [textFrame_delInput cfg prev b3 h3i]
    rw [textDelete, if_neg (by omega)]
    exact unchanged4_scrollFix b3
  · rw [textFrame_left_at_zero cfg prev b4 h4i h4]
    exact unchanged4_scrollFix b4
  · rw [textFrame_right_at_end cfg prev b5 h5i h5]
    exact unchanged4_scrollFix b5

/-- A full buffer: length at the effective maximum for the default config. -/
def fullTextBuf : TextBuf :=
  { initialized := true, buffer := fun _ => 0, length := 255, byte_length := 255,
    cursor_pos := 255, sel_start := -1, sel_end := -1, scroll_x := 0 }

/-- C6 witness: the bounds no-op statement instantiated at the full buffer
(capacity insert) and the empty buffer (backspace, delete, left, right). -/
theorem text_noop_bounds_witness :
    (fullTextBuf.initialized = true ∧ fullTextBuf.length = effMaxLen ⟨0, false, false⟩ ∧
     (32 : Int) ≤ 65 ∧ (65 : Int) ≤ 126 ∧
     emptyTextBuf.initialized = true ∧ emptyTextBuf.cursor_pos = 0 ∧
     emptyTextBuf.cursor_pos = emptyTextBuf.length) ∧
    (unchanged4 (textFrame ⟨0, false, false⟩ (insInput 65) CInput.neutral fullTextBuf) fullTextBuf ∧
     unchanged4 (textFrame ⟨0, false, false⟩ bsInput CInput.neutral emptyTextBuf) emptyTextBuf ∧
     unchanged4 (textFrame ⟨0, false, false⟩ delInput CInput.neutral emptyTextBuf) emptyTextBuf ∧
     unchanged4 (textFrame ⟨0, false, false⟩ leftInput CInput.neutral emptyTextBuf) emptyTextBuf ∧
     unchanged4 (textFrame ⟨0, false, false⟩ rightInput CInput.neutral emptyTextBuf) emptyTextBuf) :=
  ⟨⟨rfl, by decide, by decide, by decide, rfl, rfl, rfl⟩,
   text_noop_bounds ⟨0, false, false⟩ CInput.neutral 65
     fullTextBuf emptyTextBuf emptyTextBuf emptyTextBuf emptyTextBuf
     rfl (by decide) (by decide) (by decide) rfl rfl rfl rfl rfl rfl rfl rfl⟩

/-- Clean buffer state after `k` appended characters: the counters all equal
`k` and every byte outside `[0, k)` is zero. -/
def cleanAt (k : Int) (b : TextBuf) : Prop :=
  b.initialized = true ∧ b.length = k ∧ b.byte_length = k ∧ b.cursor_pos = k ∧
  ∀ i : Int, (i < 0 ∨ k ≤ i) → b.buffer i = 0

/-- Scroll maintenance preserves cleanliness. -/
theorem cleanAt_scrollFix (k : Int) (b : TextBuf) (hb : cleanAt k b) :
    cleanAt k (textScrollFix b) := by
  obtain ⟨f1, f2, f3, f4, f5⟩ := textScrollFix_fields b
  obtain ⟨h1, h2, h3, h4, h5⟩ := hb
  exact ⟨f1.trans h1, f3.trans h2, f4.trans h3, f5.trans h4,
         fun i hi => by rw [f2]; exact h5 i hi⟩

/-- Inserting a printable character at the end of a clean buffer yields a
clean buffer one longer. -/
theorem textInsert_clean (maxLen : Int) (ch : Nat) (k : Int) (b : TextBuf)
    (hb : cleanAt k b) (h0 : 0 ≤ k) (hlt : k < maxLen) :
    cleanAt (k + 1) (textInsert maxLen ch b) := by
  obtain ⟨hi, hl, hbl, hcp, hbuf⟩ := hb
  rw [textInsert, if_pos (by omega)]
  have hshift : ¬ (b.cursor_pos < b.byte_length) := by omega
  simp only [if_neg hshift]
  refine ⟨hi, ?_, ?_, ?_, ?_⟩
  · dsimp only
    omega
  · dsimp only
    omega
  · dsimp only
    omega
  · intro i hreg
    dsimp only
    split_ifs with ha hb2
    · rfl
    · exfalso
      omega
    · apply hbuf
      omega

/-- Backspacing a nonempty clean buffer yields a clean buffer one shorter. -/
theorem textBackspace_clean (k : Int) (b : TextBuf)
    (hb : cleanAt k b) (hk : 0 < k) :
    cleanAt (k - 1) (textBackspace b) := by
  obtain ⟨hi, hl, hbl, hcp, hbuf⟩ := hb
  rw [textBackspace, if_pos (by omega)]
  have hshift : ¬ (b.cursor_pos - 1 < b.byte_length - 1) := by omega
  simp only [if_neg hshift]
  refine ⟨hi, ?_, ?_, ?_, ?_⟩
  · dsimp only
    omega
  · dsimp only
    omega
  · dsimp only
    omega
  · intro i hreg
    dsimp only
    split_ifs with ha
    · rfl
    · apply hbuf
      omega

/-- Running the printable-key frames appends the characters: cleanliness
advances by the number of inserted characters. -/
theorem runTextFrames_ins (cfg : TextCfg) :
    ∀ (cs : List Int) (k : Int) (prev : CInput) (b : TextBuf),
      cleanAt k b → 0 ≤ k → (∀ c ∈ cs, 32 ≤ c ∧ c ≤ 126) →
      k + cs.length ≤ effMaxLen cfg →
      cleanAt (k + cs.length) (runTextFrames cfg prev (cs.map insInput) b) := by
  intro cs
  induction cs with
  | nil =>
      intro k prev b hb h0 hcs hle
      simpa using hb
  | cons c cs ih =>
      intro k prev b hb h0 hcs hle
      rw [List.map_cons, runTextFrames]
      have hc := hcs c (by simp)
      have hstep : cleanAt (k + 1) (textFrame cfg (insInput c) prev b) := by
        rw [textFrame_insInput cfg c prev b hb.1 hc.1 hc.2]
        refine cleanAt_scrollFix _ _ (textInsert_clean _ _ k b hb h0 ?_)
        simp only [List.length_cons] at hle
        push_cast at hle
        omega
      have hrest := ih (k + 1) (insInput c) _ hstep (by omega)
        (fun c2 hc2 => hcs c2 (by simp [hc2]))
        (by simp only [List.length_cons] at hle; push_cast at hle ⊢; omega)
      have harith : k + ((c :: cs).length : Int) = (k + 1) + (cs.length : Int) := by
        simp only [List.length_cons]
        push_cast
        ring
      rw [harith]
      exact hrest

/-- Running backspace frames removes the characters: cleanliness retreats by
the number of backspaces. -/
theorem runTextFrames_bs (cfg : TextCfg) :
    ∀ (n : Nat) (k : Int) (prev : CInput) (b : TextBuf),
      cleanAt k b → (n : Int) ≤ k →
      cleanAt (k - n) (runTextFrames cfg prev (List.replicate n bsInput) b) := by
  intro n
  induction n with
  | zero =>
      intro k prev b hb hle
      simpa using hb
  | succ n ih =>
      intro k prev b hb hle
      rw [List.replicate_succ, runTextFrames]
      have hstep : cleanAt (k - 1) (textFrame cfg bsInput prev b) := by
        rw [textFrame_bsInput cfg prev b hb.1]
        refine cleanAt_scrollFix _ _ (textBackspace_clean k b hb ?_)
        push_cast at hle
        omega
      have hrest := ih (k - 1) bsInput _ hstep (by push_cast at hle ⊢; omega)
      have harith : k - ((n + 1 : Nat) : Int) = (k - 1) - (n : Int) := by
        push_cast
        ring
      rw [harith]
      exact hrest

/-- Frame runs split across list concatenation; the previous-input snapshot
carried into the second run is the last input of the first. -/
theorem runTextFrames_append (cfg : TextCfg) :
    ∀ (l1 l2 : List CInput) (prev : CInput) (b : TextBuf),
      runTextFrames cfg prev (l1 ++ l2) b =
        runTextFrames cfg (l1.getLastD prev) l2 (runTextFrames cfg prev l1 b) := by
  intro l1
  induction l1 with
  | nil => intro l2 prev b; rfl
  | cons i l1 ih =>
      intro l2 prev b
      rw [List.cons_append, runTextFrames, runTextFrames, ih]
      rw [List.getLastD_cons]

/-- C5: starting from an initialized empty TextInputBuffer, inserting `n`
printable ASCII characters frame by frame (with `n` at most the effective
maximum length) and then applying backspace `n` times returns the buffer to
`length == 0`, `cursor_pos == 0`, and every byte of the buffer array equal
to zero. -/
theorem text_roundtrip (cfg : TextCfg) (cs : List Int)
    (hcs : ∀ c ∈ cs, 32 ≤ c ∧ c ≤ 126)
    (hn : (cs.length : Int) ≤ effMaxLen cfg) :
    (runTextFrames cfg CInput.neutral
       (cs.map insInput ++ List.replicate cs.length bsInput) emptyTextBuf).length = 0 ∧
    (runTextFrames cfg CInput.neutral
       (cs.map insInput ++ List.replicate cs.length bsInput) emptyTextBuf).cursor_pos = 0 ∧
    ∀ i : Int, (runTextFrames cfg CInput.neutral
       (cs.map insInput ++ List.replicate cs.length bsInput) emptyTextBuf).buffer i = 0 := by
  have hclean0 : cleanAt 0 emptyTextBuf :=
    ⟨rfl, rfl, rfl, rfl, fun i _ => rfl⟩
  rw [runTextFrames_append]
  have h1 := runTextFrames_ins cfg cs 0 CInput.neutral emptyTextBuf hclean0
    (le_refl 0) hcs (by omega)
  have h2 := runTextFrames_bs cfg cs.length (0 + (cs.length : Int))
    ((cs.map insInput).getLastD CInput.neutral) _ h1 (by omega)
  have harith : 0 + (cs.length : Int) - (cs.length : Int) = 0 := by ring
  rw [harith] at h2
  obtain ⟨_, hl, _, hcp, hbuf⟩ := h2
  exact ⟨hl, hcp, fun i => hbuf i (by omega)⟩

/-- C5 witness: the round-trip at the concrete key sequence "Hi"
(raw keys 72, 105) with the default configuration. -/
theorem text_roundtrip_witness :
    ((∀ c ∈ [(72 : Int), 105], 32 ≤ c ∧ c ≤ 126) ∧
     (([(72 : Int), 105].length : Int) ≤ effMaxLen ⟨0, false, false⟩)) ∧
    ((runTextFrames ⟨0, false, false⟩ CInput.neutral
        ([(72 : Int), 105].map insInput ++
          List.replicate [(72 : Int), 105].length bsInput) emptyTextBuf).length = 0 ∧
     (runTextFrames ⟨0, false, false⟩ CInput.neutral
        ([(72 : Int), 105].map insInput ++
          List.replicate [(72 : Int), 105].length bsInput) emptyTextBuf).cursor_pos = 0 ∧
     ∀ i : Int, (runTextFrames ⟨0, false, false⟩ CInput.neutral
        ([(72 : Int), 105].map insInput ++
          List.replicate [(72 : Int), 105].length bsInput) emptyTextBuf).buffer i = 0) :=
  ⟨⟨by decide, by decide⟩,
   text_roundtrip ⟨0, false, false⟩ [(72 : Int), 105] (by decide) (by decide)⟩
